import Mathlib

/-!
Shallow embedding of the systemd-docker lifecycle proxy (src/main.go) and
verification of its specified properties.

The program's pure logic (argument rewriting, environment injection, the
notify-handshake branching, pid validation, pid-file policy) is translated
directly into Lean functions.  Effectful interactions with the container
runtime and the filesystem are modelled by explicit oracle structures
(DockerWorld, NotifyWorld) describing the responses the external systems
return, together with an action trace recording every request the program
issues.
-/

set_option maxHeartbeats 1000000

/-- Go strings.HasPrefix, on the character lists of the strings. -/
def goHasPre (s pre : String) : Bool := pre.data.isPrefixOf s.data

/-- Go strings.Contains(s, "=") specialised to the "=" separator used in main.go. -/
def containsEq (s : String) : Bool := s.data.contains '='

/-- Characters after the first '='. -/
def afterFirstEq : List Char → List Char
  | [] => []
  | c :: rest => if c == '=' then rest else afterFirstEq rest

/-- Go strings.SplitN(s, "=", 2)[1]: everything after the first '='. -/
def splitNEqTail (s : String) : String := String.mk (afterFirstEq s.data)

/-- The auto-remove tokens recognised by the scan in parseContext (main.go line 98). -/
def isRm (a : String) : Bool := a == "-rm" || a == "--rm"

/-- The detach tokens recognised by the scan in parseContext (main.go line 101). -/
def isDetach (a : String) : Bool := a == "-d" || a == "-detach" || a == "--detach"

/-- The name-flag test of parseContext (main.go line 103): any token starting
with "-name" or "--name". -/
def isNameFlag (a : String) : Bool := goHasPre a "-name" || goHasPre a "--name"

/-- Name capture of parseContext (main.go lines 104-108): with '=' the suffix
after the first '=', otherwise the next token when one exists, otherwise the
previous name value is kept. -/
def captureName (a : String) (rest : List String) (name : String) : String :=
  if containsEq a then splitNEqTail a
  else
    match rest with
    | [] => name
    | b :: _ => b

/-- Result of the token scan of parseContext (main.go lines 88-118). -/
structure ScanState where
  rm : Bool
  foundD : Bool
  name : String
  newArgs : List String
deriving DecidableEq, Repr

/-- The token-by-token scan over the run arguments (main.go lines 93-114).
Accumulators mirror the Go locals c.Rm, foundD, name; the returned newArgs is
the rewritten vector before the forced-detach prepend. -/
def scanArgs : List String → Bool → Bool → String → ScanState
  | [], rm, foundD, name => { rm := rm, foundD := foundD, name := name, newArgs := [] }
  | a :: rest, rm, foundD, name =>
    if isRm a then
      scanArgs rest true foundD name
    else
      let s :=
        if isDetach a then
          scanArgs rest rm true name
        else if isNameFlag a then
          scanArgs rest rm foundD (captureName a rest name)
        else
          scanArgs rest rm foundD name
      { s with newArgs := a :: s.newArgs }

/-- The run-argument rewrite of parseContext (main.go lines 88-118): scan the
tokens, then prepend "-d" when no detach token was seen. -/
def rewriteRunArgs (runArgs : List String) : ScanState :=
  let s := scanArgs runArgs false false ""
  if s.foundD then s else { s with newArgs := "-d" :: s.newArgs }

/-- findRunArg together with the slice args[i+1:] of parseContext (main.go
lines 74-81, 128-135): the tokens after the first literal "run" marker, or
none when the marker is absent (the "run not found in arguments" error). -/
def runArgsAfterMarker : List String → Option (List String)
  | [] => none
  | a :: rest => if a == "run" then some rest else runArgsAfterMarker rest

example : (rewriteRunArgs ["nginx"]).newArgs = ["-d", "nginx"] := by decide
example : (rewriteRunArgs ["--rm", "nginx"]).newArgs = ["-d", "nginx"] := by decide
example : (rewriteRunArgs ["--rm", "nginx"]).rm = true := by decide
example : (rewriteRunArgs ["-d", "-d"]).newArgs = ["-d", "-d"] := by decide
example : (rewriteRunArgs ["--name=web", "img"]).name = "web" := by decide
example : (rewriteRunArgs ["--name", "web", "img"]).name = "web" := by decide
example : (rewriteRunArgs ["--name", "web", "img"]).newArgs = ["-d", "--name", "web", "img"] := by decide
example : (rewriteRunArgs ["--namespace=zz"]).name = "zz" := by decide
example : (rewriteRunArgs ["--name"]).name = "" := by decide
example : (rewriteRunArgs ["--name", "--rm"]).name = "--rm" := by decide
example : (rewriteRunArgs ["--name", "--rm"]).newArgs = ["-d", "--name"] := by decide
example : runArgsAfterMarker ["-p", "x", "run", "a", "b"] = some ["a", "b"] := by decide
example : runArgsAfterMarker ["-p", "x"] = none := by decide

/-- The Context structure of main.go (lines 25-38), without the process and
client handles (Cmd, Client), which are modelled by the oracle structures. -/
structure Context where
  args : List String
  logs : Bool
  notify : Bool
  name : String
  env : Bool
  rm : Bool
  id : String
  notifySocket : String
  pid : Int
  pidFile : String
deriving DecidableEq, Repr

/-- The environment-entry filter of setupEnvironment (main.go line 51): keep
an entry unless it starts with "HOME=" or "PATH=". -/
def envKeep (v : String) : Bool := !(goHasPre v "HOME=") && !(goHasPre v "PATH=")

/-- setupEnvironment (main.go lines 40-60).  environ stands for os.Environ().
Prepends the notify-socket flags when notify is on and a socket is set
(otherwise clears notify), then one "-e" flag per kept environment entry when
env-inherit is on. -/
def setupEnvironment (environ : List String) (c : Context) : Context :=
  let notifyArgs :=
    if c.notify = true ∧ 0 < c.notifySocket.length then
      ["-e", "NOTIFY_SOCKET=" ++ c.notifySocket, "-v", c.notifySocket ++ ":" ++ c.notifySocket]
    else []
  let c1 :=
    if c.notify = true ∧ 0 < c.notifySocket.length then c else { c with notify := false }
  let envArgs :=
    if c1.env then (environ.filter envKeep).flatMap (fun v => ["-e", v]) else []
  let newArgs := notifyArgs ++ envArgs
  if 0 < newArgs.length then { c1 with args := newArgs ++ c1.args } else c1

example :
    (setupEnvironment ["HOME=/root", "PATH=/bin", "FOO=bar"]
      { args := ["nginx"], logs := true, notify := false, name := "", env := true,
        rm := false, id := "", notifySocket := "", pid := 0, pidFile := "" }).args
      = ["-e", "FOO=bar", "nginx"] := by decide

/-- The fields of a dockerClient container reply that main.go reads:
Container.ID, Container.State.Running, Container.State.Pid. -/
structure ContainerInfo where
  id : String
  running : Bool
  pid : Int
deriving DecidableEq, Repr

/-- What an inspect request can report about a container: the container with
its state, a NoSuchContainer error, or another API error. -/
inductive InspectResult where
  | noSuch
  | apiError
  | found (info : ContainerInfo)
deriving DecidableEq, Repr

/-- The requests main.go issues to the container runtime, recorded as a trace:
InspectContainer, RemoveContainer (force), StartContainer, and the spawn of the
docker run command line. -/
inductive DockerAction where
  | inspect (key : String)
  | remove (id : String)
  | start (id : String)
  | launch (args : List String)
deriving DecidableEq, Repr

/-- The error outcomes of main.go, one constructor per distinct error site. -/
inductive GoError where
  | noRunArg
  | apiError
  | invalidPid (pid : Int) (id : String)
  | containerNotFound (id : String)
  | pidZero
  | earlyExit
  | dialError
  | notifyError
  | ioError
deriving DecidableEq, Repr

/-- Oracle describing the container runtime's responses: the reply to the
first InspectContainer(c.Name), whether StartContainer succeeds, the reply to
the re-inspect after start, whether RemoveContainer succeeds, the id printed
by a successful docker run spawn (none when the spawn fails), and the reply to
InspectContainer(id) used by getContainerPid. -/
structure DockerWorld where
  inspectName1 : InspectResult
  startOk : Bool
  inspectName2 : InspectResult
  removeOk : Bool
  launchOk : Option String
  inspectById : String → InspectResult

/-- lookupNamedContainer (main.go lines 137-177).  NoSuchContainer on the
first inspect is swallowed (no adoption, fall through to launch); a running
container's id and pid are adopted unchecked; a stopped one is force-removed
when Rm is set, otherwise started and re-inspected, adopting the re-inspected
id and pid unchecked.  Errors on start or re-inspect surface. -/
def lookupNamedContainer (w : DockerWorld) (c : Context) :
    Except GoError Context × List DockerAction :=
  match w.inspectName1 with
  | .noSuch => (.ok c, [.inspect c.name])
  | .apiError => (.error .apiError, [.inspect c.name])
  | .found container =>
    if container.running then
      (.ok { c with id := container.id, pid := container.pid }, [.inspect c.name])
    else if c.rm then
      (if w.removeOk then (.ok c, [.inspect c.name, .remove container.id])
       else (.error .apiError, [.inspect c.name, .remove container.id]))
    else
      (if w.startOk then
        (match w.inspectName2 with
         | .found c2 =>
            (.ok { c with id := c2.id, pid := c2.pid },
             [.inspect c.name, .start container.id, .inspect c.name])
         | _ =>
            (.error .apiError, [.inspect c.name, .start container.id, .inspect c.name]))
       else (.error .apiError, [.inspect c.name, .start container.id]))

/-- getContainerPid (main.go lines 257-277): inspect by id, fail on an API
error, fail with the invalid-pid error ("Pid is %d for container %s") when the
reported pid is non-positive, otherwise return the positive pid. -/
def getContainerPid (w : DockerWorld) (c : Context) :
    Except GoError Int × List DockerAction :=
  match w.inspectById c.id with
  | .noSuch => (.error .apiError, [.inspect c.id])
  | .apiError => (.error .apiError, [.inspect c.id])
  | .found container =>
    if container.pid ≤ 0 then
      (.error (.invalidPid container.pid c.id), [.inspect c.id])
    else
      (.ok container.pid, [.inspect c.id])

/-- launchContainer (main.go lines 179-219): spawn docker run with the
rewritten arguments, capture the trimmed stdout as the new id, then resolve
the pid through getContainerPid. -/
def launchContainer (w : DockerWorld) (c : Context) :
    Except GoError Context × List DockerAction :=
  match w.launchOk with
  | none => (.error .apiError, [.launch c.args])
  | some newId =>
    let c1 := { c with id := newId }
    match getContainerPid w c1 with
    | (.ok pid, acts) => (.ok { c1 with pid := pid }, .launch c.args :: acts)
    | (.error e, acts) => (.error e, .launch c.args :: acts)

/-- runContainer (main.go lines 221-242): look up by name when a name is set,
launch when no id was adopted, then reject a pid of exactly 0. -/
def runContainer (w : DockerWorld) (c : Context) :
    Except GoError Context × List DockerAction :=
  match (if 0 < c.name.length then lookupNamedContainer w c else (.ok c, [])) with
  | (.error e, t1) => (.error e, t1)
  | (.ok c1, t1) =>
    match (if c1.id.length = 0 then launchContainer w c1 else (.ok c1, [])) with
    | (.error e, t2) => (.error e, t1 ++ t2)
    | (.ok c2, t2) =>
      if c2.pid = 0 then (.error .pidZero, t1 ++ t2) else (.ok c2, t1 ++ t2)

/-- rmContainer (main.go lines 380-394): a no-op unless Rm is set, otherwise a
force-remove of the container by id. -/
def rmContainer (w : DockerWorld) (c : Context) :
    Except GoError Unit × List DockerAction :=
  if c.rm then
    (if w.removeOk then (.ok (), [.remove c.id])
     else (.error .apiError, [.remove c.id]))
  else (.ok (), [])

/-- The datagrams main.go writes on the notify socket: the wire strings are
"MAINPID=" followed by the decimal pid, and "READY=1". -/
inductive Datagram where
  | mainPid (pid : Int)
  | ready
deriving DecidableEq, Repr

/-- Oracle for the notify handshake: whether the directory /proc/pid exists at
the first and at the second pidDied check, whether the unixgram dial succeeds,
whether the MAINPID and READY writes succeed, the outcome of the ignored
best-effort fallback write, and os.Getpid() of the proxy process itself. -/
structure NotifyWorld where
  alive1 : Bool
  alive2 : Bool
  dialOk : Bool
  writeMainOk : Bool
  writeReadyOk : Bool
  writeFallbackOk : Bool
  selfPid : Int
deriving DecidableEq, Repr

/-- notify (main.go lines 284-318).  The second component is the list of
datagram writes attempted in order (a failing write is still an attempt; the
fallback write's outcome is ignored by the code and so never branches). -/
def notify (w : NotifyWorld) (c : Context) : Except GoError Unit × List Datagram :=
  if !w.alive1 then (.error .earlyExit, [])
  else if c.notifySocket.length = 0 then (.ok (), [])
  else if !w.dialOk then (.error .dialError, [])
  else if !w.writeMainOk then (.error .notifyError, [.mainPid c.pid])
  else if !w.alive2 then (.error .earlyExit, [.mainPid c.pid, .mainPid w.selfPid])
  else if !c.notify then
    (if !w.writeReadyOk then (.error .notifyError, [.mainPid c.pid, .ready])
     else (.ok (), [.mainPid c.pid, .ready]))
  else (.ok (), [.mainPid c.pid])

/-- A completed pid-file write: path, entire content (ioutil.WriteFile
truncates, so the content replaces anything previously in the file), and the
permission bits passed to the write. -/
structure FileWrite where
  path : String
  content : String
  mode : Nat
deriving DecidableEq, Repr

/-- pidFile (main.go lines 320-331): silently succeed without writing when no
pid-file path is configured or the pid is non-positive; otherwise write the
decimal pid (strconv.Itoa) with mode 0644, failing with an IO error when the
write fails.  writeOk is the filesystem oracle; the second component is the
attempted write. -/
def pidFile (writeOk : Bool) (c : Context) : Except GoError Unit × Option FileWrite :=
  if c.pidFile.length = 0 ∨ c.pid ≤ 0 then (.ok (), none)
  else
    let fw : FileWrite := { path := c.pidFile, content := toString c.pid, mode := 0o644 }
    if writeOk then (.ok (), some fw) else (.error .ioError, some fw)

/-- An all-defaults context, matching the zero-value Context of parseContext
before flag parsing (Logs is initialised true in main.go line 64). -/
def baseCtx : Context :=
  { args := [], logs := true, notify := false, name := "", env := false,
    rm := false, id := "", notifySocket := "", pid := 0, pidFile := "" }

example :
    (notify
      { alive1 := true, alive2 := true, dialOk := true, writeMainOk := true,
        writeReadyOk := true, writeFallbackOk := true, selfPid := 7 }
      { baseCtx with notifySocket := "/run/notify", pid := 42 })
      = (.ok (), [.mainPid 42, .ready]) := rfl

example :
    (notify
      { alive1 := true, alive2 := false, dialOk := true, writeMainOk := true,
        writeReadyOk := true, writeFallbackOk := false, selfPid := 7 }
      { baseCtx with notifySocket := "/run/notify", pid := 42 })
      = (.error .earlyExit, [.mainPid 42, .mainPid 7]) := rfl

example : pidFile true { baseCtx with pidFile := "/run/x.pid", pid := 42 }
    = (.ok (), some { path := "/run/x.pid", content := "42", mode := 420 }) := rfl

example : pidFile true { baseCtx with pidFile := "/run/x.pid", pid := -3 }
    = (.ok (), none) := rfl

/-! ## Lemmas about the run-argument scan -/

theorem isRm_not_isDetach (a : String) (h : isRm a = true) : isDetach a = false := by
  have h2 : a = "-rm" ∨ a = "--rm" := by
    simpa [isRm, Bool.or_eq_true, beq_iff_eq] using h
  rcases h2 with h2 | h2 <;> subst h2 <;> decide

theorem scanArgs_newArgs (l : List String) : ∀ rm d n,
    (scanArgs l rm d n).newArgs = l.filter (fun a => !(isRm a)) := by
  induction l with
  | nil => intro rm d n; rfl
  | cons a rest ih =>
    intro rm d n
    by_cases hr : isRm a = true
    · simp [scanArgs, hr, List.filter_cons, ih]
    · by_cases hd : isDetach a = true
      · simp [scanArgs, hr, hd, List.filter_cons, ih]
      · by_cases hn : isNameFlag a = true
        · simp [scanArgs, hr, hd, hn, List.filter_cons, ih]
        · simp [scanArgs, hr, hd, hn, List.filter_cons, ih]

theorem scanArgs_foundD (l : List String) : ∀ rm d n,
    (scanArgs l rm d n).foundD = (d || l.any isDetach) := by
  induction l with
  | nil => intro rm d n; simp [scanArgs]
  | cons a rest ih =>
    intro rm d n
    by_cases hr : isRm a = true
    · simp [scanArgs, hr, ih, isRm_not_isDetach a hr]
    · by_cases hd : isDetach a = true
      · simp [scanArgs, hr, hd, ih]
      · by_cases hn : isNameFlag a = true
        · simp [scanArgs, hr, hd, hn, ih]
        · simp [scanArgs, hr, hd, hn, ih]

theorem scanArgs_rm (l : List String) : ∀ rm d n,
    (scanArgs l rm d n).rm = (rm || l.any isRm) := by
  induction l with
  | nil => intro rm d n; simp [scanArgs]
  | cons a rest ih =>
    intro rm d n
    by_cases hr : isRm a = true
    · simp [scanArgs, hr, ih]
    · by_cases hd : isDetach a = true
      · simp [scanArgs, hr, hd, ih]
      · by_cases hn : isNameFlag a = true
        · simp [scanArgs, hr, hd, hn, ih]
        · simp [scanArgs, hr, hd, hn, ih]

theorem countP_isDetach_filter_not_isRm (l : List String) :
    (l.filter (fun a => !(isRm a))).countP isDetach = l.countP isDetach := by
  rw [List.countP_filter]
  apply List.countP_congr
  intro a _
  by_cases hd : isDetach a = true
  · have hrm : isRm a = false := by
      cases hrm : isRm a with
      | false => rfl
      | true => rw [isRm_not_isDetach a hrm] at hd; exact absurd hd (by simp)
    simp [hd, hrm]
  · simp [hd]

theorem rewriteRunArgs_def (l : List String) :
    rewriteRunArgs l =
      (if (scanArgs l false false "").foundD then scanArgs l false false ""
       else { scanArgs l false false "" with
              newArgs := "-d" :: (scanArgs l false false "").newArgs }) := rfl

/-! ## Claims about the argument rewrite -/

/-- C2: for every raw run-argument vector containing none of -d, -detach,
--detach, the rewritten vector is exactly a single prepended "-d" followed by
the remaining tokens in their original relative order (only auto-remove
tokens are dropped), so it contains exactly one detach flag and the surviving
tokens form an order-preserving subsequence of the raw vector. -/
theorem forced_detach_prepend (runArgs : List String)
    (h : ∀ a ∈ runArgs, isDetach a = false) :
    (rewriteRunArgs runArgs).newArgs = "-d" :: runArgs.filter (fun a => !(isRm a))
    ∧ (rewriteRunArgs runArgs).newArgs.countP isDetach = 1
    ∧ List.Sublist ((rewriteRunArgs runArgs).newArgs.drop 1) runArgs := by
  have hany : runArgs.any isDetach = false := by
    rw [List.any_eq_false]
    intro a ha
    simp [h a ha]
  have hfd : (scanArgs runArgs false false "").foundD = false := by
    rw [scanArgs_foundD, hany]
    rfl
  have hnew : (rewriteRunArgs runArgs).newArgs
      = "-d" :: runArgs.filter (fun a => !(isRm a)) := by
    rw [rewriteRunArgs_def, hfd]
    simp [scanArgs_newArgs]
  refine ⟨hnew, ?_, ?_⟩
  · rw [hnew, List.countP_cons]
    rw [countP_isDetach_filter_not_isRm]
    have hz : runArgs.countP isDetach = 0 := by
      rw [List.countP_eq_zero]
      intro a ha
      simp [h a ha]
    simp [hz, isDetach]
  · rw [hnew]
    simpa using List.filter_sublist runArgs

theorem forced_detach_prepend_witness :
    (rewriteRunArgs ["--rm", "nginx"]).newArgs
      = "-d" :: (["--rm", "nginx"].filter (fun a => !(isRm a)))
    ∧ (rewriteRunArgs ["--rm", "nginx"]).newArgs.countP isDetach = 1
    ∧ List.Sublist ((rewriteRunArgs ["--rm", "nginx"]).newArgs.drop 1)
        ["--rm", "nginx"] :=
  forced_detach_prepend ["--rm", "nginx"] (by decide)

/-- C3 counterexample: the vector run -d -d img is accepted by parsing and its
rewritten run arguments contain two detach flags, not exactly one. -/
theorem detach_exactly_once_counterexample :
    runArgsAfterMarker ["run", "-d", "-d", "img"] = some ["-d", "-d", "img"]
    ∧ ¬ ((rewriteRunArgs ["-d", "-d", "img"]).newArgs.countP isDetach = 1) := by
  decide

/-- C3 (amended): for every accepted raw argument vector, the rewritten run
arguments contain at least one detach flag; exactly max 1 k of them, where k
is the number of detach tokens the user supplied (all user-supplied detach
tokens are kept, and "-d" is prepended only when k = 0). -/
theorem detach_at_least_once (args runArgs : List String)
    (h : runArgsAfterMarker args = some runArgs) :
    (rewriteRunArgs runArgs).newArgs.countP isDetach
      = max 1 (runArgs.countP isDetach) := by
  by_cases hany : runArgs.any isDetach = true
  · have hfd : (scanArgs runArgs false false "").foundD = true := by
      rw [scanArgs_foundD, hany]
      rfl
    have hc : (rewriteRunArgs runArgs).newArgs.countP isDetach
        = runArgs.countP isDetach := by
      rw [rewriteRunArgs_def, hfd]
      simp [scanArgs_newArgs, countP_isDetach_filter_not_isRm]
    have hpos : 0 < runArgs.countP isDetach := by
      rw [List.countP_pos_iff]
      rcases List.any_eq_true.mp hany with ⟨a, ha, hda⟩
      exact ⟨a, ha, hda⟩
    omega
  · have hany' : runArgs.any isDetach = false := by
      cases hx : runArgs.any isDetach with
      | false => rfl
      | true => exact absurd hx hany
    have hfd : (scanArgs runArgs false false "").foundD = false := by
      rw [scanArgs_foundD, hany']
      rfl
    have hz : runArgs.countP isDetach = 0 := by
      rw [List.countP_eq_zero]
      intro a ha hda
      exact hany (List.any_eq_true.mpr ⟨a, ha, hda⟩)
    have hc : (rewriteRunArgs runArgs).newArgs.countP isDetach = 1 := by
      rw [rewriteRunArgs_def, hfd]
      simp [List.countP_cons, scanArgs_newArgs, countP_isDetach_filter_not_isRm, hz,
        isDetach]
    omega

theorem detach_at_least_once_witness :
    (rewriteRunArgs ["-d", "-d", "img"]).newArgs.countP isDetach
      = max 1 (["-d", "-d", "img"].countP isDetach) :=
  detach_at_least_once ["run", "-d", "-d", "img"] ["-d", "-d", "img"] (by decide)

/-- C4: every raw run-argument vector containing -rm or --rm yields autoRemove
set, a rewritten vector free of auto-remove tokens, and removal performed by
this tool itself: with autoRemove set, rmContainer issues the force-remove
request for the container id, and without it no remove request is issued. -/
theorem rm_stripped (runArgs : List String)
    (h : "-rm" ∈ runArgs ∨ "--rm" ∈ runArgs) :
    (rewriteRunArgs runArgs).rm = true
    ∧ (∀ a ∈ (rewriteRunArgs runArgs).newArgs, isRm a = false)
    ∧ (∀ (w : DockerWorld) (c : Context), c.rm = true →
        (rmContainer w c).2 = [DockerAction.remove c.id])
    ∧ (∀ (w : DockerWorld) (c : Context), c.rm = false →
        (rmContainer w c).2 = []) := by
  refine ⟨?_, ?_, ?_, ?_⟩
  · have hrm : (rewriteRunArgs runArgs).rm = runArgs.any isRm := by
      rw [rewriteRunArgs_def]
      by_cases hf : (scanArgs runArgs false false "").foundD
      · simp [hf, scanArgs_rm]
      · simp [hf, scanArgs_rm]
    rw [hrm, List.any_eq_true]
    rcases h with h | h
    · exact ⟨"-rm", h, by decide⟩
    · exact ⟨"--rm", h, by decide⟩
  · intro a ha
    have hmem : a ∈ "-d" :: runArgs.filter (fun x => !(isRm x)) := by
      rw [rewriteRunArgs_def] at ha
      by_cases hf : (scanArgs runArgs false false "").foundD
      · rw [if_pos hf] at ha
        rw [scanArgs_newArgs] at ha
        exact List.mem_cons_of_mem _ ha
      · rw [if_neg hf] at ha
        simp only [scanArgs_newArgs] at ha
        exact ha
    rcases List.mem_cons.mp hmem with hm | hm
    · subst hm; decide
    · have := List.of_mem_filter hm
      simpa using this
  · intro w c hc
    by_cases hok : w.removeOk
    · simp [rmContainer, hc, hok]
    · simp [rmContainer, hc, hok]
  · intro w c hc
    simp [rmContainer, hc]

theorem rm_stripped_witness :
    (rewriteRunArgs ["--rm", "busybox"]).rm = true
    ∧ isRm "-d" = false ∧ isRm "busybox" = false
    ∧ (rmContainer
        { inspectName1 := .noSuch, startOk := true, inspectName2 := .noSuch,
          removeOk := true, launchOk := none, inspectById := fun _ => .noSuch }
        { baseCtx with rm := true, id := "abc123" }).2
      = [DockerAction.remove "abc123"] :=
  ⟨(rm_stripped ["--rm", "busybox"] (Or.inr (by decide))).1,
   (rm_stripped ["--rm", "busybox"] (Or.inr (by decide))).2.1 "-d" (by decide),
   (rm_stripped ["--rm", "busybox"] (Or.inr (by decide))).2.1 "busybox" (by decide),
   (rm_stripped ["--rm", "busybox"] (Or.inr (by decide))).2.2.1
     { inspectName1 := .noSuch, startOk := true, inspectName2 := .noSuch,
       removeOk := true, launchOk := none, inspectById := fun _ => .noSuch }
     { baseCtx with rm := true, id := "abc123" } rfl⟩

/-! ## Claims about the notify handshake -/

/-- C5: whenever the main process is dead at the first liveness check, notify
fails with the early-exit error having sent nothing; and in every execution in
which the process is dead at either liveness check, no READY=1 datagram is
ever attempted. -/
theorem notify_dead_early_exit (w : NotifyWorld) (c : Context) :
    (w.alive1 = false → notify w c = (.error .earlyExit, []))
    ∧ ((w.alive1 = false ∨ w.alive2 = false) → Datagram.ready ∉ (notify w c).2) := by
  constructor
  · intro h
    simp [notify, h]
  · intro h
    rcases h with h | h
    · simp [notify, h]
    · cases h1 : w.alive1 with
      | false => simp [notify, h1]
      | true =>
        by_cases hs : c.notifySocket.length = 0
        · simp [notify, h1, hs]
        · cases hd : w.dialOk with
          | false => simp [notify, h1, hs, hd]
          | true =>
            cases hm : w.writeMainOk with
            | false => simp [notify, h1, hs, hd, hm]
            | true => simp [notify, h1, hs, hd, hm, h]

theorem notify_dead_early_exit_witness :
    notify
        { alive1 := false, alive2 := false, dialOk := true, writeMainOk := true,
          writeReadyOk := true, writeFallbackOk := true, selfPid := 7 }
        { baseCtx with notifySocket := "/run/notify", pid := 42 }
      = (.error .earlyExit, [])
    ∧ Datagram.ready ∉
        (notify
          { alive1 := false, alive2 := false, dialOk := true, writeMainOk := true,
            writeReadyOk := true, writeFallbackOk := true, selfPid := 7 }
          { baseCtx with notifySocket := "/run/notify", pid := 42 }).2 :=
  ⟨(notify_dead_early_exit _ _).1 rfl, (notify_dead_early_exit _ _).2 (Or.inl rfl)⟩

/-- C6: the best-effort fallback MAINPID datagram carrying the proxy's own
pid is attempted (as second datagram, after MAINPID of the container) exactly
on the path where the process was alive at the first check, a socket is
configured, dial and the first MAINPID write succeeded, and the process is
dead at the second check; on that path and no other the result is the
early-exit error with exactly those two datagrams.  Moreover the outcome of
the fallback write itself is ignored: notify's result does not depend on it. -/
theorem notify_fallback_mainpid_self (w : NotifyWorld) (c : Context) :
    (((notify w c).2 = [Datagram.mainPid c.pid, Datagram.mainPid w.selfPid]
        ∧ (notify w c).1 = .error .earlyExit)
      ↔ (w.alive1 = true ∧ c.notifySocket.length ≠ 0 ∧ w.dialOk = true
          ∧ w.writeMainOk = true ∧ w.alive2 = false))
    ∧ (∀ b, notify { w with writeFallbackOk := b } c = notify w c) := by
  constructor
  · constructor
    · intro hL
      cases h1 : w.alive1 <;> cases h2 : w.alive2 <;> cases hd : w.dialOk <;>
        cases hm : w.writeMainOk <;> cases hr : w.writeReadyOk <;>
        cases hn : c.notify <;> by_cases hs : c.notifySocket.length = 0 <;>
        simp_all [notify]
    · rintro ⟨h1, hs, hd, hm, h2⟩
      simp [notify, h1, hs, hd, hm, h2]
  · intro b
    rfl

theorem notify_fallback_mainpid_self_witness :
    (notify
        { alive1 := true, alive2 := false, dialOk := true, writeMainOk := true,
          writeReadyOk := true, writeFallbackOk := false, selfPid := 7 }
        { baseCtx with notifySocket := "/run/notify", pid := 42 }).2
      = [Datagram.mainPid 42, Datagram.mainPid 7]
    ∧ (notify
        { alive1 := true, alive2 := false, dialOk := true, writeMainOk := true,
          writeReadyOk := true, writeFallbackOk := false, selfPid := 7 }
        { baseCtx with notifySocket := "/run/notify", pid := 42 }).1
      = .error .earlyExit :=
  (notify_fallback_mainpid_self _ _).1.mpr ⟨rfl, by decide, rfl, rfl, rfl⟩

/-! ## Claims about environment inheritance -/

theorem prefix_eq_key (p : List Char) : ∀ (k v : List Char), '=' ∉ p → '=' ∉ k →
    ((p ++ ['=']).isPrefixOf (k ++ '=' :: v) = true ↔ k = p) := by
  induction p with
  | nil =>
    intro k v hp hk
    constructor
    · intro h
      cases k with
      | nil => rfl
      | cons c k' =>
        exfalso
        simp only [List.nil_append, List.cons_append, List.isPrefixOf,
          Bool.and_eq_true, beq_iff_eq] at h
        exact hk (h.1 ▸ List.mem_cons_self c k')
    · intro h
      subst h
      simp [List.isPrefixOf]
  | cons a p' ih =>
    intro k v hp hk
    have hp' : '=' ∉ p' := fun hx => hp (List.mem_cons_of_mem _ hx)
    have hpa : ('=' : Char) ≠ a := fun hx => hp (hx ▸ List.mem_cons_self a p')
    constructor
    · intro h
      cases k with
      | nil =>
        exfalso
        simp only [List.cons_append, List.nil_append, List.isPrefixOf,
          Bool.and_eq_true, beq_iff_eq] at h
        exact hpa h.1.symm
      | cons c k' =>
        have hk' : '=' ∉ k' := fun hx => hk (List.mem_cons_of_mem _ hx)
        simp only [List.cons_append, List.isPrefixOf, Bool.and_eq_true,
          beq_iff_eq] at h
        have := (ih k' v hp' hk').mp h.2
        rw [this, h.1]
    · intro h
      subst h
      simp only [List.cons_append, List.isPrefixOf, Bool.and_eq_true, beq_iff_eq]
      exact ⟨by simp, (ih p' v hp' hp').mpr rfl⟩

theorem goHasPre_key (pre k v : String) (hp : '=' ∉ pre.data) (hk : '=' ∉ k.data) :
    (goHasPre (k ++ "=" ++ v) (pre ++ "=") = true ↔ k = pre) := by
  unfold goHasPre
  have h1 : (pre ++ "=").data = pre.data ++ ['='] := by
    rw [String.data_append]
  have h2 : (k ++ "=" ++ v).data = k.data ++ '=' :: v.data := by
    rw [String.data_append, String.data_append]
    simp
  rw [h1, h2, prefix_eq_key pre.data k.data v.data hp hk]
  constructor
  · intro h
    exact String.ext h
  · intro h
    rw [h]

/-- C7: with environment inheritance requested (and the notify flag off, as in
a plain env-inherit invocation), the prepended environment-injection flags are
exactly one "-e" flag per environment entry kept by the filter, and for every
well-formed entry whose key contains no '=' the filter drops it precisely when
the key is exactly HOME or exactly PATH. -/
theorem env_inherit_excludes_home_path (environ : List String) (c : Context)
    (henv : c.env = true) (hnot : c.notify = false) :
    (setupEnvironment environ c).args
      = ((environ.filter envKeep).flatMap (fun v => ["-e", v])) ++ c.args
    ∧ (∀ k v : String, '=' ∉ k.data →
        (envKeep (k ++ "=" ++ v) = false ↔ (k = "HOME" ∨ k = "PATH"))) := by
  constructor
  · cases hx : (environ.filter envKeep).flatMap (fun v => ["-e", v]) with
    | nil => simp [setupEnvironment, hnot, henv, hx]
    | cons y ys => simp [setupEnvironment, hnot, henv, hx]
  · intro k v hk
    have hH := goHasPre_key "HOME" k v (by decide) hk
    have hP := goHasPre_key "PATH" k v (by decide) hk
    rw [show ("HOME" ++ "=" : String) = "HOME=" from rfl] at hH
    rw [show ("PATH" ++ "=" : String) = "PATH=" from rfl] at hP
    have hb : envKeep (k ++ "=" ++ v) = false
        ↔ (goHasPre (k ++ "=" ++ v) "HOME=" = true
            ∨ goHasPre (k ++ "=" ++ v) "PATH=" = true) := by
      unfold envKeep
      cases h1 : goHasPre (k ++ "=" ++ v) "HOME=" <;>
        cases h2 : goHasPre (k ++ "=" ++ v) "PATH=" <;> simp
    rw [hb, hH, hP]

theorem env_inherit_excludes_home_path_witness :
    (setupEnvironment ["HOME=/root", "PATH=/bin", "FOO=bar"]
        { baseCtx with env := true, args := ["nginx"] }).args
      = (((["HOME=/root", "PATH=/bin", "FOO=bar"].filter envKeep).flatMap
          (fun v => ["-e", v])) ++ ["nginx"])
    ∧ (envKeep ("FOO" ++ "=" ++ "bar") = false ↔ ("FOO" = "HOME" ∨ "FOO" = "PATH"))
    ∧ (setupEnvironment ["HOME=/root", "PATH=/bin", "FOO=bar"]
        { baseCtx with env := true, args := ["nginx"] }).args
      = ["-e", "FOO=bar", "nginx"] :=
  ⟨(env_inherit_excludes_home_path ["HOME=/root", "PATH=/bin", "FOO=bar"]
      { baseCtx with env := true, args := ["nginx"] } rfl rfl).1,
   (env_inherit_excludes_home_path ["HOME=/root", "PATH=/bin", "FOO=bar"]
      { baseCtx with env := true, args := ["nginx"] } rfl rfl).2 "FOO" "bar" (by decide),
   by decide⟩

/-! ## Claims about pid resolution -/

theorem getContainerPid_ok_pos (w : DockerWorld) (c : Context) (pid : Int)
    (acts : List DockerAction) (h : getContainerPid w c = (.ok pid, acts)) :
    0 < pid := by
  simp only [getContainerPid] at h
  split at h
  · simp at h
  · simp at h
  · rename_i info heq
    split at h
    · simp at h
    · rename_i hp
      simp only [Prod.mk.injEq, Except.ok.injEq] at h
      omega

theorem launchContainer_ok_pos (w : DockerWorld) (c c2 : Context)
    (t2 : List DockerAction) (h : launchContainer w c = (.ok c2, t2)) :
    0 < c2.pid := by
  simp only [launchContainer] at h
  split at h
  · simp at h
  · rename_i newId hL
    split at h
    · rename_i pid acts heq
      simp only [Prod.mk.injEq, Except.ok.injEq] at h
      have hpos := getContainerPid_ok_pos w { c with id := newId } pid acts heq
      rw [← h.1]
      exact hpos
    · simp at h

/-- C1 counterexample: a named container the runtime reports running with pid
-1 is adopted and the whole runContainer stage succeeds with hostPid -1, a
non-positive pid silently accepted (no InvalidState error on the attach
path). -/
theorem negative_pid_accepted_counterexample :
    (runContainer
        { inspectName1 := .found { id := "abc123", running := true, pid := -1 },
          startOk := true, inspectName2 := .noSuch, removeOk := true,
          launchOk := none, inspectById := fun _ => .noSuch }
        { baseCtx with name := "web" }).1
      = .ok { baseCtx with name := "web", id := "abc123", pid := -1 }
    ∧ ({ baseCtx with name := "web", id := "abc123", pid := -1 } : Context).pid ≤ 0 :=
  ⟨rfl, by decide⟩

/-- C1 (amended): getContainerPid, the resolver used on the fresh-launch
path, rejects every inspected pid below or equal to 0 with the invalid-pid
error; a successful runContainer never stores hostPid exactly 0 on any path;
and on the fresh-launch path (no name, no adopted id) a successful run stores
a strictly positive hostPid.  The attach and restart-attach paths, however,
adopt the inspected pid without the positivity check, so only pid 0 (not a
negative pid) is rejected there. -/
theorem pid_validation (w : DockerWorld) (c : Context) :
    (∀ info, w.inspectById c.id = .found info → info.pid ≤ 0 →
        getContainerPid w c = (.error (.invalidPid info.pid c.id), [.inspect c.id]))
    ∧ (∀ c', (runContainer w c).1 = .ok c' → c'.pid ≠ 0)
    ∧ (c.name.length = 0 → c.id.length = 0 →
        ∀ c', (runContainer w c).1 = .ok c' → 0 < c'.pid) := by
  refine ⟨?_, ?_, ?_⟩
  · intro info hfound hle
    simp [getContainerPid, hfound, hle]
  · intro c' h
    simp only [runContainer] at h
    split at h
    · simp at h
    · split at h
      · simp at h
      · split at h
        · simp at h
        · rename_i hcond
          simp only [Except.ok.injEq] at h
          subst h
          exact hcond
  · intro hname hid c' h
    have hn : ¬ 0 < c.name.length := by omega
    simp only [runContainer, if_neg hn] at h
    rw [if_pos hid] at h
    split at h
    · simp at h
    · rename_i c2 t2 heq2
      have hpos := launchContainer_ok_pos w c c2 t2 heq2
      rw [if_neg (show ¬ c2.pid = 0 by omega)] at h
      simp only [Except.ok.injEq] at h
      exact h ▸ hpos

theorem pid_validation_witness :
    getContainerPid
        { inspectName1 := .noSuch, startOk := true, inspectName2 := .noSuch,
          removeOk := true, launchOk := none,
          inspectById := fun _ => .found { id := "cid", running := false, pid := -2 } }
        { baseCtx with id := "cid" }
      = (.error (.invalidPid (-2) "cid"), [.inspect "cid"])
    ∧ (0 : Int) < ({ baseCtx with id := "nid", pid := 9 } : Context).pid
    ∧ ({ baseCtx with id := "nid", pid := 9 } : Context).pid ≠ 0 :=
  ⟨(pid_validation
      { inspectName1 := .noSuch, startOk := true, inspectName2 := .noSuch,
        removeOk := true, launchOk := none,
        inspectById := fun _ => .found { id := "cid", running := false, pid := -2 } }
      { baseCtx with id := "cid" }).1
      { id := "cid", running := false, pid := -2 } rfl (by decide),
   (pid_validation
      { inspectName1 := .noSuch, startOk := true, inspectName2 := .noSuch,
        removeOk := true, launchOk := some "nid",
        inspectById := fun _ => .found { id := "nid", running := true, pid := 9 } }
      baseCtx).2.2 rfl rfl { baseCtx with id := "nid", pid := 9 } rfl,
   (pid_validation
      { inspectName1 := .noSuch, startOk := true, inspectName2 := .noSuch,
        removeOk := true, launchOk := some "nid",
        inspectById := fun _ => .found { id := "nid", running := true, pid := 9 } }
      baseCtx).2.1 { baseCtx with id := "nid", pid := 9 } rfl⟩

/-! ## Claim about idempotent re-attach -/

/-- C8: when the runtime reports the named container as running at lookup
time (with the non-empty id and live non-zero pid a running container has),
runContainer adopts the existing id and pid, issues only the single inspect
request (the launcher is never invoked, so no container is created and the
runtime state is not mutated), and because runContainer is a pure function of
the runtime state and the parsed context, any second invocation with the same
name against the unchanged runtime returns the very same id and pid. -/
theorem reattach_idempotent (w : DockerWorld) (c : Context) (info : ContainerInfo)
    (hname : c.name.length ≠ 0) (hfound : w.inspectName1 = .found info)
    (hrun : info.running = true) (hid : info.id.length ≠ 0) (hpid : info.pid ≠ 0) :
    runContainer w c
      = (.ok { c with id := info.id, pid := info.pid }, [.inspect c.name])
    ∧ (∀ a ∈ (runContainer w c).2, a = DockerAction.inspect c.name) := by
  have hlook : lookupNamedContainer w c
      = (.ok { c with id := info.id, pid := info.pid }, [.inspect c.name]) := by
    simp [lookupNamedContainer, hfound, hrun]
  have h1 : runContainer w c
      = (.ok { c with id := info.id, pid := info.pid }, [.inspect c.name]) := by
    simp only [runContainer, if_pos (Nat.pos_of_ne_zero hname), hlook]
    rw [if_neg hid]
    simp [hpid]
  refine ⟨h1, ?_⟩
  rw [h1]
  intro a ha
  simpa using ha

theorem reattach_idempotent_witness :
    runContainer
        { inspectName1 := .found { id := "abc123", running := true, pid := 7 },
          startOk := true, inspectName2 := .noSuch, removeOk := true,
          launchOk := none, inspectById := fun _ => .noSuch }
        { baseCtx with name := "web" }
      = (.ok { baseCtx with name := "web", id := "abc123", pid := 7 },
         [.inspect "web"]) :=
  (reattach_idempotent
      { inspectName1 := .found { id := "abc123", running := true, pid := 7 },
        startOk := true, inspectName2 := .noSuch, removeOk := true,
        launchOk := none, inspectById := fun _ => .noSuch }
      { baseCtx with name := "web" }
      { id := "abc123", running := true, pid := 7 }
      (by decide) rfl rfl (by decide) (by decide)).1

/-! ## Claims about name capture and the pid file -/

/-- C9 counterexample: in the space-separated form the token following the
name flag is captured as the name but does not always remain in the rewritten
vector; when it is itself a recognised token (here the auto-remove token) it
is stripped, contradicting the claim that the value token always remains. -/
theorem name_value_token_dropped_counterexample :
    (rewriteRunArgs ["--name", "--rm"]).name = "--rm"
    ∧ ¬ ("--rm" ∈ (rewriteRunArgs ["--name", "--rm"]).newArgs) := by
  decide

/-- C9 (amended): any token merely starting with "-name" or "--name" (such as
"--namespace" or "-named") is treated as a name flag; in the space-separated
form the captured name is the immediately following token, the flag token
itself stays in place in the rewritten vector, and the scan continues over
the following tokens as usual (so the value token stays only when no other
rule strips it); a trailing name flag with no following token leaves the name
unchanged (hence empty) without error. -/
theorem name_scan_lookahead :
    (isNameFlag "--namespace" = true ∧ isNameFlag "-named" = true)
    ∧ (∀ (a b : String) (rest : List String) (rm d : Bool) (n : String),
        isRm a = false → isDetach a = false → isNameFlag a = true →
        containsEq a = false →
        scanArgs (a :: b :: rest) rm d n
          = { scanArgs (b :: rest) rm d b with
              newArgs := a :: (scanArgs (b :: rest) rm d b).newArgs })
    ∧ (∀ (a : String) (rm d : Bool) (n : String),
        isRm a = false → isDetach a = false → isNameFlag a = true →
        containsEq a = false →
        scanArgs [a] rm d n = { rm := rm, foundD := d, name := n, newArgs := [a] }) := by
  refine ⟨by decide, ?_, ?_⟩
  · intro a b rest rm d n hr hd hn hc
    simp [scanArgs, hr, hd, hn, captureName, hc]
  · intro a rm d n hr hd hn hc
    simp [scanArgs, hr, hd, hn, captureName, hc]

theorem name_scan_lookahead_witness :
    scanArgs ["--name", "web"] false false ""
      = { scanArgs ["web"] false false "web" with
          newArgs := "--name" :: (scanArgs ["web"] false false "web").newArgs }
    ∧ scanArgs ["--name"] true false "x"
      = { rm := true, foundD := false, name := "x", newArgs := ["--name"] } :=
  ⟨name_scan_lookahead.2.1 "--name" "web" [] false false ""
      (by decide) (by decide) (by decide) (by decide),
   name_scan_lookahead.2.2 "--name" true false "x"
      (by decide) (by decide) (by decide) (by decide)⟩

/-- C10: the pid-file stage silently succeeds writing nothing whenever the
configured path is empty or the resolved pid is non-positive (even when a pid
file was requested), and whenever a write is attempted at all its entire
content is the decimal representation of the strictly positive pid, at the
configured path, with world-readable mode 0644 (the write replaces any
previous file content). -/
theorem pidfile_policy (writeOk : Bool) (c : Context) :
    ((c.pidFile.length = 0 ∨ c.pid ≤ 0) → pidFile writeOk c = (.ok (), none))
    ∧ (∀ fw, (pidFile writeOk c).2 = some fw →
        0 < c.pid ∧ fw.path = c.pidFile ∧ fw.content = toString c.pid
          ∧ fw.mode = 0o644) := by
  constructor
  · intro h
    simp only [pidFile]
    rw [if_pos h]
  · intro fw hfw
    by_cases h : c.pidFile.length = 0 ∨ c.pid ≤ 0
    · simp only [pidFile] at hfw
      rw [if_pos h] at hfw
      simp at hfw
    · have hp : 0 < c.pid := by
        rcases not_or.mp h with ⟨h1, h2⟩
        omega
      simp only [pidFile] at hfw
      rw [if_neg h] at hfw
      cases hw : writeOk with
      | true =>
        rw [hw] at hfw
        simp only [if_true, Option.some.injEq] at hfw
        rw [← hfw]
        exact ⟨hp, rfl, rfl, rfl⟩
      | false =>
        rw [hw] at hfw
        simp only [Bool.false_eq_true, if_false, Option.some.injEq] at hfw
        rw [← hfw]
        exact ⟨hp, rfl, rfl, rfl⟩

theorem pidfile_policy_witness :
    pidFile true { baseCtx with pidFile := "/run/x.pid", pid := -1 } = (.ok (), none)
    ∧ ((0 : Int) < 42 ∧ "/run/x.pid" = "/run/x.pid" ∧ "42" = toString (42 : Int)
        ∧ (420 : Nat) = 0o644) :=
  ⟨(pidfile_policy true { baseCtx with pidFile := "/run/x.pid", pid := -1 }).1
      (Or.inr (by decide)),
   (pidfile_policy true { baseCtx with pidFile := "/run/x.pid", pid := 42 }).2
      { path := "/run/x.pid", content := "42", mode := 420 } (by decide)⟩
